import Mathlib

/-!
Verification development for the producthunt-scraper repository.

The definitions in this file are a shallow embedding of the crawl
orchestration core:

* `src/producthunt_scraper/scraper/base_scraper.py` — the retrying fetch
  wrapper (`get_list_of_product_soups`, `get_single_product_soup`) built on
  the tenacity retry decorator;
* `src/main_sequential.py` — checkpoint load/save, the per-item and per-date
  processing functions, and the main date loop with its rolling "today";
* `src/main.py` — the date-sequence generator of the concurrent entrypoint;
* `src/producthunt_scraper/core/script.py` — `scrape_single_product`;
* `src/producthunt_scraper/core/model.py` — the record data model;
* `src/producthunt_scraper/core/bigquery.py` — `BigQueryClient.insert_row`.

Calendar dates are modelled as integers (epoch day numbers): adding one day
is `+ 1` and the datetime order is the integer order.  Python exceptions are
modelled with `Except String`; a `.error` value is a raised exception.
-/

/- ===================== string helpers =====================
   Models of the Python string operations used by the validity checks:
   `str.strip`, `len`, and the substring test `pat in s`. -/

/-- Model of Python `str.strip()`: drop whitespace from both ends. -/
def pyStrip (s : String) : String :=
  String.mk (((s.toList.dropWhile Char.isWhitespace).reverse.dropWhile
    Char.isWhitespace).reverse)

/-- Character-list test: `pat` occurs at the head of `cs`. -/
def charsHavePre : List Char → List Char → Bool
  | [], _ => true
  | _ :: _, [] => false
  | p :: ps, c :: cs => p == c && charsHavePre ps cs

/-- Character-list test: `pat` occurs somewhere in `cs`. -/
def charsContain (pat : List Char) : List Char → Bool
  | [] => charsHavePre pat []
  | c :: cs => charsHavePre pat (c :: cs) || charsContain pat cs

/-- Model of the Python substring test `pat in s`. -/
def strContains (s pat : String) : Bool :=
  charsContain pat.toList s.toList

/- ===================== retrying fetch wrapper =====================
   Shallow embedding of src/producthunt_scraper/scraper/base_scraper.py. -/

/-- Constant from base_scraper.py. -/
def MIN_HTML_LENGTH : Nat := 200

/-- Constant from base_scraper.py. -/
def MAX_ATTEMPTS : Nat := 5

/-- Model of a BeautifulSoup document: the HTML it was parsed from. -/
structure Soup where
  html : String
deriving DecidableEq

/-- Model of base_scraper.return_empty_soup: the empty parsed document
returned by the tenacity retry_error_callback once all attempts fail. -/
def return_empty_soup : Soup := ⟨""⟩

/-- Outcome of one fetch attempt before the validity checks run:
either some step of browser.get / page.wait_for / page.wait / get_content
raised an exception, or a content string was obtained. -/
inductive AttemptResult where
  | raises (e : String)
  | content (html : String)
deriving DecidableEq

/-- Body of one attempt of get_list_of_product_soups: on obtained content,
raise BadHTML when the stripped content is shorter than MIN_HTML_LENGTH or
when the marker "leaderboard-title" does not occur in it; otherwise return
the parsed soup. -/
def listAttempt : AttemptResult → Except String Soup
  | .raises e => Except.error e
  | .content html =>
      if html = "" ∨ (pyStrip html).length < MIN_HTML_LENGTH then
        Except.error "HTML too small/empty"
      else if strContains html "leaderboard-title" = false then
        Except.error "Required element missing"
      else
        Except.ok ⟨html⟩

/-- Body of one attempt of get_single_product_soup: on obtained content,
raise BadHTML when the stripped content is shorter than MIN_HTML_LENGTH;
there is no marker check on the content in the source. -/
def singleAttempt : AttemptResult → Except String Soup
  | .raises e => Except.error e
  | .content html =>
      if html = "" ∨ (pyStrip html).length < MIN_HTML_LENGTH then
        Except.error "HTML too small/empty"
      else
        Except.ok ⟨html⟩

/-- Model of the tenacity retry decorator as configured in base_scraper.py:
`made` attempts have already been made, the second `Nat` argument is how many
attempts remain before `stop_after_attempt` fires.  An attempt that raises an
exception matched by `retryOn` is retried; an unmatched exception is
re-raised.  When attempts are exhausted, the `fallback` (the
retry_error_callback result) is returned if configured, else the retry error
propagates.  The returned pair is (result, number of attempts made). -/
def tenacityRetry (retryOn : String → Bool) (fallback : Option Soup)
    (op : Nat → Except String Soup) (made : Nat) :
    Nat → Except String (Soup × Nat)
  | 0 =>
      match fallback with
      | some s => Except.ok (s, made)
      | none => Except.error "RetryError"
  | r + 1 =>
      match op made with
      | Except.ok s => Except.ok (s, made + 1)
      | Except.error e =>
          if retryOn e then tenacityRetry retryOn fallback op (made + 1) r
          else Except.error e

/-- The retry policy used by both wrapped fetchers:
stop_after_attempt(MAX_ATTEMPTS), retry_if_exception_type(Exception) (so
every exception is retried), retry_error_callback=return_empty_soup. -/
def retryFetch (op : Nat → Except String Soup) : Except String (Soup × Nat) :=
  tenacityRetry (fun _ => true) (some return_empty_soup) op 0 MAX_ATTEMPTS

/-- get_list_of_product_soups: the list-page attempt body wrapped in the
retry policy.  `env k` is the raw outcome of attempt number `k`. -/
def get_list_of_product_soups (env : Nat → AttemptResult) :
    Except String (Soup × Nat) :=
  retryFetch (fun k => listAttempt (env k))

/-- get_single_product_soup: the product-page attempt body wrapped in the
retry policy.  `env k` is the raw outcome of attempt number `k`. -/
def get_single_product_soup (env : Nat → AttemptResult) :
    Except String (Soup × Nat) :=
  retryFetch (fun k => singleAttempt (env k))

/-- A raised (uncaught) outcome of an attempt body. -/
def isErr : Except String Soup → Bool
  | Except.ok _ => false
  | Except.error _ => true

/- ===================== record data model =====================
   Shallow embedding of src/producthunt_scraper/core/model.py. -/

/-- Single link on a team/maker page. -/
structure Link where
  type : String
  href : String
deriving DecidableEq

/-- Maker about section: about text and list of links. -/
structure TeamPage where
  about : String
  links : List Link
deriving DecidableEq

/-- Maker on a product. -/
structure TeamMember where
  name : String
  role : String
  href : String
  team_page : Option TeamPage
deriving DecidableEq

/-- Product listed in a Built With group. -/
structure BuiltWithProduct where
  name : String
  tagline : String
  categories : List String
  ph_link : String
deriving DecidableEq

/-- Built With section group. -/
structure BuiltWithGroup where
  group_name : String
  products : List BuiltWithProduct
deriving DecidableEq

/-- Full product page. -/
structure ProductPage where
  product_name : String
  product_description : String
  categories : List String
  website_link : String
  team_members : Option (List TeamMember)
  built_with : Option (List BuiltWithGroup)
deriving DecidableEq

/-- Leaderboard product. -/
structure Product where
  name : String
  tagline : String
  topics : List String
  ph_url : String
  date : Option String
  product_page : Option ProductPage
deriving DecidableEq

/- ===================== record enrichment =====================
   Shallow embedding of scrape_single_product in
   src/producthunt_scraper/core/script.py.  The four fetch-and-parse steps
   (parse_page, parse_teams, parse_team_page per maker link, and
   parse_built_with_page, each behind the retrying fetch wrapper) are the
   Fetch-and-Parse Port, an external collaborator; `FetchEnv` provides their
   results for one product. -/

/-- Results of the fetch-and-parse collaborator calls made while enriching
one product. -/
structure FetchEnv where
  parsedPage : ProductPage
  teams : List TeamMember
  teamPageFor : String → TeamPage
  builtWith : List BuiltWithGroup

/-- Simplified model of urllib.parse.urljoin: an absolute reference replaces
the base, a relative one is appended.  The claims proved below never inspect
the joined value. -/
def urljoin (base rel : String) : String :=
  if rel = "" then base
  else if rel.startsWith "http" then rel
  else base ++ rel

/-- scrape_single_product: fetch and parse the overview, makers, per-maker
and built-with pages, attach each maker page to its maker, assemble the
ProductPage, and attach it to the product, which is returned. -/
def scrape_single_product (env : FetchEnv) (product : Product) : Product :=
  let product_url := urljoin "https://www.producthunt.com/products/" product.ph_url ++ "/"
  let product_page := env.parsedPage
  let teams := env.teams
  let maker_pages_parsed := (teams.map (fun maker => maker.href)).map env.teamPageFor
  let built_with := env.builtWith
  let teams2 := (teams.zip maker_pages_parsed).map
    (fun tp => { tp.1 with team_page := some tp.2 })
  let product_page2 := { product_page with
    team_members := some teams2
    website_link := product_url
    built_with := some built_with }
  { product with product_page := some product_page2 }

/- ===================== checkpoint store =====================
   Shallow embedding of load_checkpoint / save_checkpoint in
   src/main_sequential.py.  The checkpoint file on disk is modelled as:
   absent (os.path.exists false); unreadable (open or json.load raises); or
   parsed json data.  In parsed data, `last_date` is the result of
   datetime.fromisoformat on the stored string — `none` models a missing or
   unparsable date string (fromisoformat raises); `last_index` is the value
   of checkpoint_data.get("last_index", 0). -/

/-- Parsed checkpoint JSON content. -/
structure CkptData where
  last_date : Option Int
  last_index : Nat
deriving DecidableEq

/-- State of the checkpoint file on disk. -/
inductive CkptFile where
  | absent
  | unreadable
  | data (c : CkptData)
deriving DecidableEq

/-- load_checkpoint: `none` when the file is missing, or when reading or
parsing it raises (the exception is caught and logged); otherwise the
recovered (last date, last index) pair. -/
def load_checkpoint : CkptFile → Option (Int × Nat)
  | .absent => none
  | .unreadable => none
  | .data c =>
      match c.last_date with
      | none => none
      | some d => some (d, c.last_index)

/-- save_checkpoint: overwrite the checkpoint file with the given date and
index (the last_updated timestamp carries no information used by load). -/
def save_checkpoint (d : Int) (n : Nat) (_f : CkptFile) : CkptFile :=
  CkptFile.data ⟨some d, n⟩

/-- Start of main in src/main_sequential.py: load the checkpoint; if present
resume at the day after the checkpointed date with the checkpointed index,
else start at the configured start date with index 0. -/
def resumeStart (baseStart : Int) (f : CkptFile) : Int × Nat :=
  match load_checkpoint f with
  | some di => (di.1 + 1, di.2)
  | none => (baseStart, 0)

/- ===================== work-unit generator =====================
   The date sequences produced by the run loops of src/main_sequential.py
   and src/main.py, over integer day numbers. -/

/-- The while loop `while current <= today`, with `today` fixed: the list of
dates processed, in processing order. -/
def datesToProcess (current today : Int) : List Int :=
  if h : today < current then []
  else current :: datesToProcess (current + 1) today
termination_by (today + 1 - current).toNat
decreasing_by omega

/-- Closed form of the generated sequence: the integer interval
[s, t] as a list, in increasing order. -/
def dateRange (s t : Int) : List Int :=
  (List.range (t + 1 - s).toNat).map (fun (i : Nat) => s + (i : Int))

/-- The date loop of main in src/main_sequential.py with the rolling today:
the list argument holds the wall-clock dates observed by the re-evaluation
`new_today = datetime.now()...` after each processed date (`today` is
replaced when the observation is larger); once the list is exhausted the
wall clock no longer moves and the plain loop remains. -/
def mainLoopAux : List Int → Int → Int → List Int
  | [], current, today => datesToProcess current today
  | u :: us, current, today =>
      if today < current then []
      else current :: mainLoopAux us (current + 1) (max today u)

/-- The dates processed by one continuous run of main in
src/main_sequential.py, starting at `current` with computed today `today`
and the given rolling-today observations. -/
def mainLoop (current today : Int) (updates : List Int) : List Int :=
  mainLoopAux updates current today

/-- The dates_to_process builder of main in src/main.py: pairs of
(days since base_start, date) for each date from `current` through `today`. -/
def datesWithIdx (baseStart current today : Int) : List (Int × Int) :=
  if h : today < current then []
  else (current - baseStart, current) :: datesWithIdx baseStart (current + 1) today
termination_by (today + 1 - current).toNat
decreasing_by omega

/- ===================== dispatcher =====================
   Shallow embedding of process_one_product / process_date and the per-date
   part of the main loop in src/main_sequential.py.  The repository calls
   `bigq.insert_product(date_str, global_index, full)`, a sink method whose
   definition is not part of the sources; per the Sink Port specification it
   delivers one record under the ordinal `global_index`.  One item is
   summarised by a Bool: `true` when its scrape_single_product and sink
   delivery both succeed, `false` when either raises. -/

/-- process_one_product: deliver the enriched record under `global_index`
and return 1; on any exception the error is caught and logged, nothing is
delivered, and 0 is returned.  Result: (ordinals delivered, return value). -/
def process_one_product (ok : Bool) (global_index : Nat) : List Nat × Nat :=
  if ok then ([global_index], 1) else ([], 0)

/-- The `for i, product in enumerate(products)` loop of process_date,
started at enumerate index `i`: every item is attempted at ordinal
`base + i`, and the successes are summed. -/
def processItemsFrom (items : List Bool) (base i : Nat) : List Nat × Nat :=
  match items with
  | [] => ([], 0)
  | ok :: rest =>
      let r1 := process_one_product ok (base + i)
      let r2 := processItemsFrom rest base (i + 1)
      (r1.1 ++ r2.1, r1.2 + r2.2)

/-- process_date: process every listed item of one date sequentially; the
empty listing is "zero products", not an error.  Result: (ordinals
delivered, processed count). -/
def process_date (items : List Bool) (base : Nat) : List Nat × Nat :=
  processItemsFrom items base 0

/-- One iteration of the main while loop: process the date, advance the
global index by the processed count, and save the checkpoint
`(current_date, base_index)`.  Result: (ordinals delivered, new base index,
checkpoint written). -/
def dateStep (d : Int) (items : List Bool) (base : Nat) :
    List Nat × Nat × (Int × Nat) :=
  let r := process_date items base
  (r.1, base + r.2, (d, base + r.2))

/-- The whole-run delivery trace: fold dateStep over the dates of one
continuous run.  Result: (ordinals delivered to the sink in delivery order,
checkpoints written in order). -/
def runDates (dates : List (Int × List Bool)) (base : Nat) :
    List Nat × List (Int × Nat) :=
  match dates with
  | [] => ([], [])
  | (d, items) :: rest =>
      let s := dateStep d items base
      let r := runDates rest s.2.1
      (s.1 ++ r.1, s.2.2 :: r.2)

/-- Total number of successfully processed items in a run. -/
def totalDelivered (dates : List (Int × List Bool)) : Nat :=
  (dates.map (fun p => p.2.count true)).sum

/-- The failed items of a date form a (possibly empty) suffix of its item
list: after the leading successes, every item fails. -/
def noMidFail (items : List Bool) : Bool :=
  (items.dropWhile (fun b => b)).all (fun b => !b)

/- ===================== sink =====================
   Shallow embedding of BigQueryClient.insert_row in
   src/producthunt_scraper/core/bigquery.py.  The underlying
   insert_rows_json call is the Sink Port: it may succeed, report a
   non-empty error list, or raise. -/

/-- Behavior of the underlying bq_client.insert_rows_json call (or of row
construction) for one invocation. -/
inductive SinkOutcome where
  | success
  | insertErrors (es : String)
  | raises (e : String)
deriving DecidableEq

/-- The try block of insert_row: an empty product list returns at once with
no insert attempted; otherwise the flattened rows are sent, and a non-empty
error report is re-raised as an Exception.  The value is the number of rows
sent to the sink. -/
def insert_row_body (outcome : SinkOutcome) (products : List Product) :
    Except String Nat :=
  if products.isEmpty then Except.ok 0
  else
    match outcome with
    | .success => Except.ok products.length
    | .insertErrors es => Except.error ("Failed to insert row: " ++ es)
    | .raises e => Except.error e

/-- insert_row: the try block with every Exception caught and logged inside
the method; the method always returns normally (value None). -/
def insert_row (outcome : SinkOutcome) (products : List Product) :
    Except String Unit :=
  match insert_row_body outcome products with
  | Except.ok _ => Except.ok ()
  | Except.error _ => Except.ok ()

/- ===================== helper lemmas: retry wrapper ===================== -/

/-- With the always-retry predicate and a configured fallback, the retry
loop always returns a value, never an error. -/
theorem tenacityRetry_ok_exists (op : Nat → Except String Soup) (s0 : Soup) :
    ∀ r made : Nat, ∃ out,
      tenacityRetry (fun _ => true) (some s0) op made r = Except.ok out := by
  intro r
  induction r with
  | zero => intro made; exact ⟨(s0, made), rfl⟩
  | succ r ih =>
      intro made
      cases hop : op made with
      | ok s => exact ⟨(s, made + 1), by simp [tenacityRetry, hop]⟩
      | error e =>
          obtain ⟨out, hout⟩ := ih (made + 1)
          exact ⟨out, by simp [tenacityRetry, hop, hout]⟩

/-- When every remaining attempt raises, the retry loop makes all of them
and then returns the fallback. -/
theorem tenacityRetry_allFail (op : Nat → Except String Soup) (s0 : Soup) :
    ∀ r made : Nat, (∀ j, made ≤ j → j < made + r → isErr (op j) = true) →
      tenacityRetry (fun _ => true) (some s0) op made r =
        Except.ok (s0, made + r) := by
  intro r
  induction r with
  | zero => intro made _; simp [tenacityRetry]
  | succ r ih =>
      intro made h
      have h0 : isErr (op made) = true := h made le_rfl (by omega)
      cases hop : op made with
      | ok s => rw [hop] at h0; simp [isErr] at h0
      | error e =>
          have hrec := ih (made + 1) (fun j hj1 hj2 => h j (by omega) (by omega))
          simp only [tenacityRetry, hop, if_pos, hrec]
          have : made + 1 + r = made + (r + 1) := by omega
          rw [this]

/-- When the first `k` attempts raise and attempt `k` (zero-based) succeeds
with `s`, within the attempt budget, the retry loop returns `s` after
exactly `k + 1` attempts. -/
theorem tenacityRetry_succAt (op : Nat → Except String Soup) (s0 s : Soup) :
    ∀ (k : Nat), ∀ r made : Nat, k < r →
      (∀ j, made ≤ j → j < made + k → isErr (op j) = true) →
      op (made + k) = Except.ok s →
      tenacityRetry (fun _ => true) (some s0) op made r =
        Except.ok (s, made + k + 1) := by
  intro k
  induction k with
  | zero =>
      intro r made hk _ hsucc
      obtain ⟨r2, rfl⟩ : ∃ r2, r = r2 + 1 := ⟨r - 1, by omega⟩
      rw [Nat.add_zero] at hsucc
      simp [tenacityRetry, hsucc]
  | succ k ih =>
      intro r made hk hfail hsucc
      obtain ⟨r2, rfl⟩ : ∃ r2, r = r2 + 1 := ⟨r - 1, by omega⟩
      have h0 : isErr (op made) = true := hfail made le_rfl (by omega)
      cases hop : op made with
      | ok s1 => rw [hop] at h0; simp [isErr] at h0
      | error e =>
          have hrec := ih r2 (made + 1) (by omega)
            (fun j hj1 hj2 => hfail j (by omega) (by omega))
            (by rw [show made + 1 + k = made + (k + 1) from by omega]; exact hsucc)
          simp only [tenacityRetry, hop, if_pos, hrec]
          have : made + 1 + k + 1 = made + (k + 1) + 1 := by omega
          rw [this]

/- ===================== helper lemmas: date generator ===================== -/

/-- An empty interval gives an empty list. -/
theorem dateRange_empty (s t : Int) (h : t < s) : dateRange s t = [] := by
  unfold dateRange
  have h0 : (t + 1 - s).toNat = 0 := by omega
  simp [h0]

/-- A nonempty interval starts at its left end. -/
theorem dateRange_cons (s t : Int) (h : s ≤ t) :
    dateRange s t = s :: dateRange (s + 1) t := by
  unfold dateRange
  have h1 : (t + 1 - s).toNat = (t + 1 - (s + 1)).toNat + 1 := by omega
  rw [h1, List.range_succ_eq_map, List.map_cons, List.map_map]
  congr 1
  · omega
  · refine List.map_congr_left ?_
    intro i _
    simp only [Function.comp_apply, Nat.succ_eq_add_one]
    omega

/-- The interval list is strictly increasing. -/
theorem dateRange_pairwise (s t : Int) :
    List.Pairwise (· < ·) (dateRange s t) := by
  unfold dateRange
  rw [List.pairwise_map]
  refine (List.pairwise_lt_range _).imp ?_
  intro a b hab
  omega

/-- Every element of an interval starting above D is above D. -/
theorem dateRange_all_gt (D t : Int) :
    ((dateRange (D + 1) t).all (fun d => decide (D < d))) = true := by
  rw [List.all_eq_true]
  intro x hx
  unfold dateRange at hx
  rw [List.mem_map] at hx
  obtain ⟨i, _, rfl⟩ := hx
  simp only [decide_eq_true_eq]
  omega

/-- The while loop with a fixed today produces exactly the interval
[current, today]. -/
theorem datesToProcess_eq_range (s t : Int) :
    datesToProcess s t = dateRange s t := by
  generalize hn : (t + 1 - s).toNat = n
  induction n generalizing s with
  | zero =>
      have h : t < s := by omega
      rw [datesToProcess]
      simp [h, dateRange_empty s t h]
  | succ n ih =>
      have h : ¬ t < s := by omega
      rw [datesToProcess]
      simp only [h, dite_false]
      rw [ih (s + 1) (by omega), dateRange_cons s t (by omega)]

/-- The dates_to_process builder of src/main.py visits the same date
sequence as the sequential while loop. -/
theorem datesWithIdx_snd (b : Int) (s t : Int) :
    (datesWithIdx b s t).map (fun p => p.2) = datesToProcess s t := by
  generalize hn : (t + 1 - s).toNat = n
  induction n generalizing s with
  | zero =>
      have h : t < s := by omega
      rw [datesWithIdx, datesToProcess]
      simp [h]
  | succ n ih =>
      have h : ¬ t < s := by omega
      rw [datesWithIdx, datesToProcess]
      simp only [h, dite_false, List.map_cons]
      rw [ih (s + 1) (by omega)]

/-- Rolling today: starting at S with computed today T, if after processing
`k` dates (the wall clock having stood still meanwhile) the re-evaluation
observes T2 > T, the run goes on through T2: it processes exactly the
interval [S, T2]. -/
theorem mainLoop_rolling (T T2 : Int) :
    ∀ (k : Nat) (S : Int), S + k ≤ T → T < T2 →
      mainLoop S T (List.replicate k T ++ [T2]) = dateRange S T2 := by
  intro k
  induction k with
  | zero =>
      intro S hk h2
      have hS : ¬ T < S := by omega
      show mainLoopAux (List.replicate 0 T ++ [T2]) S T = _
      rw [List.replicate_zero, List.nil_append]
      rw [mainLoopAux]
      simp only [hS, ite_false]
      rw [mainLoopAux]
      rw [max_eq_right (le_of_lt h2)]
      rw [datesToProcess_eq_range, ← dateRange_cons S T2 (by omega)]
  | succ k ih =>
      intro S hk h2
      have hS : ¬ T < S := by omega
      show mainLoopAux (List.replicate (k + 1) T ++ [T2]) S T = _
      rw [List.replicate_succ, List.cons_append]
      rw [mainLoopAux]
      simp only [hS, ite_false, max_self]
      have hrec := ih (S + 1) (by omega) h2
      unfold mainLoop at hrec
      rw [hrec, ← dateRange_cons S T2 (by omega)]

/- ===================== helper lemmas: dispatcher ===================== -/

/-- The per-date loop counts exactly the successful items. -/
theorem processItemsFrom_count (items : List Bool) :
    ∀ base i, (processItemsFrom items base i).2 = items.count true := by
  induction items with
  | nil => intro base i; rfl
  | cons ok rest ih =>
      intro base i
      simp only [processItemsFrom, process_one_product, ih, List.count_cons]
      cases ok <;> (simp; try omega)

/-- The per-date loop delivers exactly one record per successful item. -/
theorem processItemsFrom_len (items : List Bool) :
    ∀ base i, (processItemsFrom items base i).1.length = items.count true := by
  induction items with
  | nil => intro base i; rfl
  | cons ok rest ih =>
      intro base i
      simp only [processItemsFrom, process_one_product, List.length_append, ih,
        List.count_cons]
      cases ok <;> (simp; try omega)

/-- When every item of a list fails, the loop delivers nothing and counts
zero. -/
theorem processItemsFrom_allFalse (items : List Bool)
    (h : items.all (fun b => !b) = true) :
    ∀ base i, processItemsFrom items base i = ([], 0) := by
  induction items with
  | nil => intro base i; rfl
  | cons ok rest ih =>
      intro base i
      simp only [List.all_cons, Bool.and_eq_true] at h
      have hok : ok = false := by
        cases ok
        · rfl
        · simp at h
      subst hok
      simp only [processItemsFrom, process_one_product, if_neg Bool.false_ne_true,
        ih h.2 base (i + 1)]
      simp

/-- An all-failing list has no successful item. -/
theorem count_true_allFalse (items : List Bool)
    (h : items.all (fun b => !b) = true) : items.count true = 0 := by
  induction items with
  | nil => rfl
  | cons ok rest ih =>
      simp only [List.all_cons, Bool.and_eq_true] at h
      have hok : ok = false := by
        cases ok
        · rfl
        · simp at h
      subst hok
      simp [List.count_cons, ih h.2]

/-- When the failures of a date form a suffix of its item list, the date
delivers the consecutive ordinals starting at its base index. -/
theorem processItemsFrom_dense (items : List Bool) :
    noMidFail items = true →
    ∀ base i, processItemsFrom items base i =
      (List.range' (base + i) (items.count true), items.count true) := by
  induction items with
  | nil => intro _ base i; rfl
  | cons ok rest ih =>
      intro h base i
      cases ok
      · have hrest : rest.all (fun b => !b) = true := by
          simpa [noMidFail, List.dropWhile_cons] using h
        rw [List.count_cons]
        simp only [processItemsFrom, process_one_product, if_neg Bool.false_ne_true,
          processItemsFrom_allFalse rest hrest base (i + 1),
          count_true_allFalse rest hrest]
        simp
      · have hrest : noMidFail rest = true := by
          simpa [noMidFail, List.dropWhile_cons] using h
        rw [List.count_cons]
        simp only [processItemsFrom, process_one_product, if_pos rfl,
          ih hrest base (i + 1)]
        have hone : (if (true == true) = true then 1 else 0) = 1 := by simp
        rw [hone, List.range'_succ]
        simp only [if_true, List.singleton_append, Prod.mk.injEq]
        constructor
        · rw [show base + (i + 1) = base + i + 1 from by omega]
        · omega

/-- When, in every date of a run, the failing items form a suffix of the
items of that date, the whole run delivers the consecutive ordinals
starting at the initial base index. -/
theorem runDates_dense (dates : List (Int × List Bool))
    (h : ∀ p ∈ dates, noMidFail p.2 = true) :
    ∀ base, (runDates dates base).1 =
      List.range' base (totalDelivered dates) := by
  induction dates with
  | nil => intro base; rfl
  | cons p rest ih =>
      intro base
      obtain ⟨d, items⟩ := p
      have hitems : noMidFail items = true := h (d, items) (List.mem_cons_self _ _)
      have hrest := ih (fun q hq => h q (List.mem_cons_of_mem _ hq))
      have hpd : process_date items base =
          (List.range' base (items.count true), items.count true) := by
        unfold process_date
        rw [processItemsFrom_dense items hitems base 0, Nat.add_zero]
      have h1 : (runDates ((d, items) :: rest) base).1 =
          (process_date items base).1 ++
            (runDates rest (base + (process_date items base).2)).1 := rfl
      rw [h1, hpd]
      show List.range' base (items.count true) ++
          (runDates rest (base + items.count true)).1 = _
      rw [hrest (base + items.count true)]
      have h2 : totalDelivered ((d, items) :: rest) =
          totalDelivered rest + items.count true := by
        unfold totalDelivered
        simp [Nat.add_comm]
      rw [h2]
      have h3 := List.range'_append base (items.count true) (totalDelivered rest) 1
      rw [one_mul] at h3
      exact h3

/- ===================== claim theorems ===================== -/

/-- C1: for both fetchers wrapped by the retrying fetch wrapper
(get_list_of_product_soups and get_single_product_soup): if the underlying
attempt fails the first k < MAX_ATTEMPTS times and then succeeds, the
wrapper returns that successful document exactly once, after exactly k + 1
attempts; if every attempt fails, the wrapper makes exactly MAX_ATTEMPTS
attempts and returns the empty-soup sentinel; and on every input the
wrapper returns normally, never propagating an exception. -/
theorem retry_wrapper_contract (env : Nat → AttemptResult) :
    (∀ k s, k < MAX_ATTEMPTS →
      (∀ j, j < k → isErr (listAttempt (env j)) = true) →
      listAttempt (env k) = Except.ok s →
      get_list_of_product_soups env = Except.ok (s, k + 1)) ∧
    ((∀ j, j < MAX_ATTEMPTS → isErr (listAttempt (env j)) = true) →
      get_list_of_product_soups env = Except.ok (return_empty_soup, MAX_ATTEMPTS)) ∧
    (∃ out, get_list_of_product_soups env = Except.ok out) ∧
    (∀ k s, k < MAX_ATTEMPTS →
      (∀ j, j < k → isErr (singleAttempt (env j)) = true) →
      singleAttempt (env k) = Except.ok s →
      get_single_product_soup env = Except.ok (s, k + 1)) ∧
    ((∀ j, j < MAX_ATTEMPTS → isErr (singleAttempt (env j)) = true) →
      get_single_product_soup env = Except.ok (return_empty_soup, MAX_ATTEMPTS)) ∧
    (∃ out, get_single_product_soup env = Except.ok out) := by
  refine ⟨?_, ?_, ?_, ?_, ?_, ?_⟩
  · intro k s hk hfail hsucc
    have h := tenacityRetry_succAt (fun j => listAttempt (env j)) return_empty_soup
      s k MAX_ATTEMPTS 0 hk (fun j h0 hj => hfail j (by omega)) (by simpa using hsucc)
    simpa [get_list_of_product_soups, retryFetch] using h
  · intro hfail
    have h := tenacityRetry_allFail (fun j => listAttempt (env j)) return_empty_soup
      MAX_ATTEMPTS 0 (fun j h0 hj => hfail j (by omega))
    simpa [get_list_of_product_soups, retryFetch] using h
  · exact tenacityRetry_ok_exists (fun j => listAttempt (env j)) return_empty_soup
      MAX_ATTEMPTS 0
  · intro k s hk hfail hsucc
    have h := tenacityRetry_succAt (fun j => singleAttempt (env j)) return_empty_soup
      s k MAX_ATTEMPTS 0 hk (fun j h0 hj => hfail j (by omega)) (by simpa using hsucc)
    simpa [get_single_product_soup, retryFetch] using h
  · intro hfail
    have h := tenacityRetry_allFail (fun j => singleAttempt (env j)) return_empty_soup
      MAX_ATTEMPTS 0 (fun j h0 hj => hfail j (by omega))
    simpa [get_single_product_soup, retryFetch] using h
  · exact tenacityRetry_ok_exists (fun j => singleAttempt (env j)) return_empty_soup
      MAX_ATTEMPTS 0

/-- Valid list-page content: 200 filler characters followed by the marker. -/
def goodListHtml : String :=
  String.mk (List.replicate 200 'a') ++ "leaderboard-title"

/-- Attempt environment whose first two attempts raise and whose third
returns valid list-page content. -/
def envListW : Nat → AttemptResult :=
  fun k => if k < 2 then AttemptResult.raises "network error"
           else AttemptResult.content goodListHtml

/-- Attempt environment in which every attempt raises. -/
def envFailW : Nat → AttemptResult :=
  fun _ => AttemptResult.raises "network error"

set_option maxRecDepth 10000 in
/-- Witness for C1: with two failures then a success, the list fetcher
returns the valid soup after 3 attempts; with failures only, the product
fetcher returns the empty sentinel after MAX_ATTEMPTS attempts. -/
theorem retry_wrapper_contract_witness :
    get_list_of_product_soups envListW = Except.ok (⟨goodListHtml⟩, 3) ∧
    get_single_product_soup envFailW = Except.ok (return_empty_soup, MAX_ATTEMPTS) := by
  constructor
  · exact (retry_wrapper_contract envListW).1 2 ⟨goodListHtml⟩ (by decide)
      (by decide) (by rfl)
  · exact (retry_wrapper_contract envFailW).2.2.2.2.1 (by decide)

/-- Content of minimum valid size containing no markup at all. -/
def plainHtml : String := String.mk (List.replicate 200 'a')

set_option maxRecDepth 10000 in
/-- C7 counterexample: get_single_product_soup accepts content that passes
the minimum-size predicate but contains no structural marker whatsoever
(neither the "main h2" selector text nor even the list marker): the attempt
body checks only the size of the returned content, so the claim that both
wrapped fetch functions require a structural marker in the content is
false. -/
theorem single_marker_not_checked_cex :
    singleAttempt (AttemptResult.content plainHtml) = Except.ok ⟨plainHtml⟩ ∧
    strContains plainHtml "main h2" = false ∧
    strContains plainHtml "leaderboard-title" = false ∧
    MIN_HTML_LENGTH ≤ (pyStrip plainHtml).length := by
  refine ⟨by rfl, by decide, by decide, by decide⟩

/-- C7 amended: a get_list_of_product_soups attempt counts a fetched
content as a success exactly when it satisfies the minimum-content-size
predicate and contains the structural marker "leaderboard-title"; a
get_single_product_soup attempt counts it as a success exactly when it
satisfies the minimum-content-size predicate alone (its structural
condition is enforced only by the pre-content readiness wait, not checked
on the returned content); a content failing the applicable checks, like a
raising attempt, yields an exception and is therefore a retryable failure,
not a success. -/
theorem fetch_validity_characterization (h e : String) :
    (isErr (listAttempt (AttemptResult.content h)) = false ↔
      (MIN_HTML_LENGTH ≤ (pyStrip h).length ∧
        strContains h "leaderboard-title" = true)) ∧
    (isErr (singleAttempt (AttemptResult.content h)) = false ↔
      MIN_HTML_LENGTH ≤ (pyStrip h).length) ∧
    isErr (listAttempt (AttemptResult.raises e)) = true ∧
    isErr (singleAttempt (AttemptResult.raises e)) = true := by
  have hempty : (pyStrip "").length = 0 := rfl
  refine ⟨?_, ?_, rfl, rfl⟩
  · show isErr (if h = "" ∨ (pyStrip h).length < MIN_HTML_LENGTH then
        Except.error "HTML too small/empty"
      else if strContains h "leaderboard-title" = false then
        Except.error "Required element missing"
      else Except.ok ⟨h⟩) = false ↔ _
    split_ifs with h1 h2
    · simp only [isErr]
      constructor
      · intro hfalse; exact absurd hfalse (by simp)
      · rintro ⟨hlen, _⟩
        rcases h1 with h1 | h1
        · subst h1; rw [hempty] at hlen; exact absurd hlen (by decide)
        · omega
    · simp only [isErr]
      constructor
      · intro hfalse; exact absurd hfalse (by simp)
      · rintro ⟨_, hm⟩
        rw [hm] at h2; exact absurd h2 (by simp)
    · simp only [isErr]
      constructor
      · intro _
        push_neg at h1
        exact ⟨by omega, by simpa using h2⟩
      · intro _; trivial
  · show isErr (if h = "" ∨ (pyStrip h).length < MIN_HTML_LENGTH then
        Except.error "HTML too small/empty"
      else Except.ok ⟨h⟩) = false ↔ _
    split_ifs with h1
    · simp only [isErr]
      constructor
      · intro hfalse; exact absurd hfalse (by simp)
      · intro hlen
        rcases h1 with h1 | h1
        · subst h1; rw [hempty] at hlen; exact absurd hlen (by decide)
        · omega
    · simp only [isErr]
      constructor
      · intro _
        push_neg at h1
        omega
      · intro _; trivial

/-- C4: with a fixed computed today T, the run loop of main_sequential
and the dates_to_process generator of main.py both process exactly the
calendar dates of the closed interval [S, T], each exactly once, in
strictly increasing order; when the start date is after today the
generated sequence is empty and the run performs zero work, without
raising an error. -/
theorem run_dates_exact_interval (S T : Int) :
    (S ≤ T → datesToProcess S T = dateRange S T ∧
      List.Pairwise (· < ·) (datesToProcess S T)) ∧
    (T < S → datesToProcess S T = [] ∧ datesWithIdx S S T = []) ∧
    mainLoop S T [] = datesToProcess S T ∧
    (datesWithIdx S S T).map (fun p => p.2) = datesToProcess S T := by
  refine ⟨fun _ => ⟨datesToProcess_eq_range S T, ?_⟩,
    fun hlt => ⟨?_, ?_⟩, rfl, datesWithIdx_snd S S T⟩
  · rw [datesToProcess_eq_range]
    exact dateRange_pairwise S T
  · rw [datesToProcess]
    simp [hlt]
  · rw [datesWithIdx]
    simp [hlt]

/-- Witness for C4: the interval [0, 2] is generated exactly, and a start
after today generates nothing. -/
theorem run_dates_exact_interval_witness :
    (datesToProcess 0 2 = dateRange 0 2 ∧
      List.Pairwise (· < ·) (datesToProcess 0 2)) ∧
    (datesToProcess 5 3 = [] ∧ datesWithIdx 5 5 3 = []) :=
  ⟨(run_dates_exact_interval 0 2).1 (by decide),
   (run_dates_exact_interval 5 3).2.1 (by decide)⟩

/-- C8: rolling today: if a run started at S with computed today T is
still processing (k dates done, S + k ≤ T) when the re-evaluated
wall-clock date reads T2 > T, the same continuous run, without any
restart, goes on to process every date of (T, T2] as well: it processes
exactly the interval [S, T2], each date exactly once, in increasing
order. -/
theorem rolling_today_extends_run (S T T2 : Int) (k : Nat)
    (hk : S + k ≤ T) (hT : T < T2) :
    mainLoop S T (List.replicate k T ++ [T2]) = dateRange S T2 ∧
    List.Pairwise (· < ·) (mainLoop S T (List.replicate k T ++ [T2])) := by
  have h := mainLoop_rolling T T2 k S hk hT
  exact ⟨h, h ▸ dateRange_pairwise S T2⟩

/-- Witness for C8: a run over [0, 1] that observes today advancing to 3
after its first date processes exactly [0, 3]. -/
theorem rolling_today_extends_run_witness :
    mainLoop 0 1 (List.replicate 1 1 ++ [3]) = dateRange 0 3 ∧
    List.Pairwise (· < ·) (mainLoop 0 1 (List.replicate 1 1 ++ [3])) :=
  rolling_today_extends_run 0 1 3 1 (by decide) (by decide)

/-- C5: a restart that finds a checkpoint recording date D and ordinal i
resumes at D + 1 carrying ordinal i, and processes exactly the dates of
[D + 1, today] — beginning at D + 1 and never a date ≤ D; a missing or
unreadable checkpoint file loads as the absent value (never an error) and
the run starts from the configured start date with ordinal 0. -/
theorem resume_skips_completed_dates (baseStart D T : Int) (i : Nat)
    (h : D + 1 ≤ T) :
    resumeStart baseStart (CkptFile.data ⟨some D, i⟩) = (D + 1, i) ∧
    datesToProcess (D + 1) T = dateRange (D + 1) T ∧
    (datesToProcess (D + 1) T).head? = some (D + 1) ∧
    ((datesToProcess (D + 1) T).all (fun d => decide (D < d))) = true ∧
    load_checkpoint CkptFile.absent = none ∧
    load_checkpoint CkptFile.unreadable = none ∧
    resumeStart baseStart CkptFile.absent = (baseStart, 0) ∧
    resumeStart baseStart CkptFile.unreadable = (baseStart, 0) := by
  refine ⟨rfl, datesToProcess_eq_range _ _, ?_, ?_, rfl, rfl, rfl, rfl⟩
  · rw [datesToProcess_eq_range, dateRange_cons _ _ h]
    rfl
  · rw [datesToProcess_eq_range]
    exact dateRange_all_gt D T

/-- Witness for C5: checkpoint (3, 7) with today 5 resumes at (4, 7). -/
theorem resume_skips_completed_dates_witness :
    resumeStart 0 (CkptFile.data ⟨some 3, 7⟩) = (4, 7) ∧
    datesToProcess 4 5 = dateRange 4 5 ∧
    (datesToProcess 4 5).head? = some 4 ∧
    ((datesToProcess 4 5).all (fun d => decide ((3:Int) < d))) = true ∧
    load_checkpoint CkptFile.absent = none ∧
    load_checkpoint CkptFile.unreadable = none ∧
    resumeStart 0 CkptFile.absent = (0, 0) ∧
    resumeStart 0 CkptFile.unreadable = (0, 0) :=
  resume_skips_completed_dates 0 3 5 7 (by decide)

/-- C6: checkpoint round trip: for any date d and ordinal n, saving and
then loading returns the present state (d, n); loading with no checkpoint
file present returns the absent value rather than raising. -/
theorem checkpoint_roundtrip (d : Int) (n : Nat) (f : CkptFile) :
    load_checkpoint (save_checkpoint d n f) = some (d, n) ∧
    load_checkpoint CkptFile.absent = none :=
  ⟨rfl, rfl⟩

/-- C2 counterexample: two dates, the first listing three items of which
the middle one fails, the second listing one succeeding item: the sink
receives the ordinals [0, 2, 2] — not strictly increasing, with a gap at 1,
and with two records delivered under the same ordinal 2.  The claim that
delivered ordinals are strictly increasing and gap-free for any failure
pattern is false. -/
theorem ordinal_collision_cex :
    (runDates [(0, [true, false, true]), (1, [true])] 0).1 = [0, 2, 2] ∧
    ¬ List.Pairwise (· < ·)
      (runDates [(0, [true, false, true]), (1, [true])] 0).1 ∧
    ¬ List.Nodup (runDates [(0, [true, false, true]), (1, [true])] 0).1 := by
  refine ⟨rfl, by decide, by decide⟩

/-- C2 amended: in one continuous run, if within every date the failing
items form a suffix of that date's item list (in particular whenever no
item fails at all), the ordinals delivered to the sink are exactly
0, 1, ..., totalDelivered - 1: strictly increasing, gap-free, and no two
records are delivered under the same ordinal.  (The counterexample shows
the unrestricted claim fails once an item that is not at the tail of its
date fails.) -/
theorem ordinals_dense_of_suffix_failures (dates : List (Int × List Bool))
    (h : ∀ p ∈ dates, noMidFail p.2 = true) :
    (runDates dates 0).1 = List.range (totalDelivered dates) ∧
    List.Pairwise (· < ·) (runDates dates 0).1 ∧
    List.Nodup (runDates dates 0).1 := by
  have h0 := runDates_dense dates h 0
  refine ⟨?_, ?_, ?_⟩
  · rw [h0, List.range_eq_range']
  · rw [h0]
    exact List.pairwise_lt_range' _ _
  · rw [h0]
    exact List.nodup_range' _ _

/-- Witness for C2 (amended): a run whose only failure closes its date
delivers exactly the ordinals 0, 1, 2. -/
theorem ordinals_dense_of_suffix_failures_witness :
    (runDates [((0:Int), [true, true, false]), ((1:Int), [true])] 0).1 =
      List.range (totalDelivered [((0:Int), [true, true, false]), ((1:Int), [true])]) ∧
    List.Pairwise (· < ·)
      (runDates [((0:Int), [true, true, false]), ((1:Int), [true])] 0).1 ∧
    List.Nodup (runDates [((0:Int), [true, true, false]), ((1:Int), [true])] 0).1 :=
  ordinals_dense_of_suffix_failures
    [((0:Int), [true, true, false]), ((1:Int), [true])] (by decide)

/-- C3: a date listing N = a + 1 + b items of which exactly one fails
(every other item succeeds) completes with exactly N - 1 successful
deliveries: the per-item exception is caught and counted as 0, the
remaining items still run, the recorded failure count N - processed is 1,
and the checkpoint for the date is still written afterwards, carrying the
index advanced by N - 1. -/
theorem one_item_failure_isolation (d : Int) (a b base : Nat) :
    (process_date (List.replicate a true ++ false :: List.replicate b true) base).2
      = a + b ∧
    ((process_date (List.replicate a true ++ false :: List.replicate b true) base).1).length
      = a + b ∧
    (List.replicate a true ++ false :: List.replicate b true).length -
      (process_date (List.replicate a true ++ false :: List.replicate b true) base).2
      = 1 ∧
    (dateStep d (List.replicate a true ++ false :: List.replicate b true) base).2.2
      = (d, base + (a + b)) := by
  have hc : (List.replicate a true ++ false :: List.replicate b true).count true
      = a + b := by
    simp [List.count_append, List.count_cons, List.count_replicate]
  have hcount := processItemsFrom_count
    (List.replicate a true ++ false :: List.replicate b true) base 0
  refine ⟨?_, ?_, ?_, ?_⟩
  · show (processItemsFrom (List.replicate a true ++ false :: List.replicate b true)
      base 0).2 = a + b
    rw [hcount, hc]
  · show ((processItemsFrom (List.replicate a true ++ false :: List.replicate b true)
      base 0).1).length = a + b
    rw [processItemsFrom_len, hc]
  · show (List.replicate a true ++ false :: List.replicate b true).length -
      (processItemsFrom (List.replicate a true ++ false :: List.replicate b true)
        base 0).2 = 1
    rw [hcount, hc]
    simp only [List.length_append, List.length_replicate, List.length_cons]
    omega
  · show (d, base + (processItemsFrom
      (List.replicate a true ++ false :: List.replicate b true) base 0).2)
      = (d, base + (a + b))
    rw [hcount, hc]

/-- C9: enrichment preserves identity: for every product handed to
scrape_single_product, the returned product has the same name, tagline,
topics and ph_url (and date, which the caller process_one_product sets
afterwards) as the input; only the product_page field is filled in. -/
theorem enrichment_preserves_identity (env : FetchEnv) (p : Product) :
    (scrape_single_product env p).name = p.name ∧
    (scrape_single_product env p).tagline = p.tagline ∧
    (scrape_single_product env p).topics = p.topics ∧
    (scrape_single_product env p).ph_url = p.ph_url ∧
    (scrape_single_product env p).date = p.date ∧
    ∃ pp, scrape_single_product env p = { p with product_page := some pp } :=
  ⟨rfl, rfl, rfl, rfl, rfl, ⟨_, rfl⟩⟩

/-- C10: BigQueryClient.insert_row never propagates an exception to its
caller: it returns the normal value for every sink outcome (so a delivery
failure is indistinguishable from success at the call site), and with an
empty product list it returns without sending any row to the sink. -/
theorem insert_row_never_raises (outcome : SinkOutcome)
    (products : List Product) :
    insert_row outcome products = Except.ok () ∧
    insert_row outcome products = insert_row SinkOutcome.success products ∧
    (products = [] → insert_row_body outcome products = Except.ok 0) := by
  refine ⟨?_, ?_, ?_⟩
  · unfold insert_row
    cases insert_row_body outcome products <;> rfl
  · unfold insert_row
    cases insert_row_body outcome products <;>
      cases insert_row_body SinkOutcome.success products <;> rfl
  · intro hp
    subst hp
    rfl

/-- Witness for C10: a sink that reports errors still yields a normal
return, and the empty list sends nothing. -/
theorem insert_row_never_raises_witness :
    insert_row (SinkOutcome.insertErrors "schema mismatch") [] = Except.ok () ∧
    insert_row_body (SinkOutcome.insertErrors "schema mismatch")
      ([] : List Product) = Except.ok 0 :=
  ⟨(insert_row_never_raises (SinkOutcome.insertErrors "schema mismatch") []).1,
   (insert_row_never_raises (SinkOutcome.insertErrors "schema mismatch") []).2.2 rfl⟩
